import Mathlib

/-!
Shallow embedding of the Lichess game-scraper Cloud Functions:
the basic handler (`fetchLichessGame`, index.js) and the advanced handler
(`fetchLichessGameAdvanced`, index-advanced.js).  Pure JS values are modelled
by inductive types, the rendered page by an explicit structure, fallible
external steps (browser launch, navigation, script injection) by option-valued
error slots in a `World`, and the in-page result assembler - the single
`page.evaluate` callback - by an `Except`-valued Lean function that mirrors
the callback statement by statement.
-/

namespace LichessScraper

/-- A JSON value, as produced by the page-context JSON.parse.
Numbers are kept as a decimal mantissa/exponent pair so that fractional
literals round-trip without floating point. -/
inductive JVal : Type where
  | jnull : JVal
  | jbool : Bool → JVal
  | jnum : Int → Int → JVal
  | jstr : String → JVal
  | jarr : List JVal → JVal
  | jobj : List (String × JVal) → JVal

/-- JSON/JS whitespace skipping, used both by the JSON parser and by the
model of parseInt (which skips leading whitespace). -/
def skipWs : List Char → List Char
  | c :: cs => if c = ' ' ∨ c = '\t' ∨ c = '\n' ∨ c = '\r' then skipWs cs else c :: cs
  | [] => []

/-- Decimal digit value of a character, if it is a digit. -/
def digitVal (c : Char) : Option Nat :=
  if '0' ≤ c ∧ c ≤ '9' then some (c.toNat - '0'.toNat) else none

/-- Hexadecimal digit value of a character, if it is a hex digit. -/
def hexVal (c : Char) : Option Nat :=
  if '0' ≤ c ∧ c ≤ '9' then some (c.toNat - '0'.toNat)
  else if 'a' ≤ c ∧ c ≤ 'f' then some (c.toNat - 'a'.toNat + 10)
  else if 'A' ≤ c ∧ c ≤ 'F' then some (c.toNat - 'A'.toNat + 10)
  else none

/-- Take the maximal leading run of decimal digits. -/
def takeDigits : List Char → (List Nat × List Char)
  | c :: cs =>
    match digitVal c with
    | some d => let r := takeDigits cs; (d :: r.1, r.2)
    | none => ([], c :: cs)
  | [] => ([], [])

/-- Take the maximal leading run of hexadecimal digits. -/
def takeHexDigits : List Char → (List Nat × List Char)
  | c :: cs =>
    match hexVal c with
    | some d => let r := takeHexDigits cs; (d :: r.1, r.2)
    | none => ([], c :: cs)
  | [] => ([], [])

/-- Combine a digit run into a natural number in the given base. -/
def digitsToNat (base : Nat) (ds : List Nat) : Nat :=
  ds.foldl (fun acc d => acc * base + d) 0

/-- Parse the characters of a JSON string literal after the opening quote,
handling the standard escapes; returns the decoded characters and the rest
after the closing quote. -/
def parseStrChars : List Char → Option (List Char × List Char)
  | [] => none
  | '"' :: rest => some ([], rest)
  | '\\' :: 'u' :: h1 :: h2 :: h3 :: h4 :: rest =>
    match hexVal h1, hexVal h2, hexVal h3, hexVal h4 with
    | some a, some b, some c, some d =>
      (parseStrChars rest).map fun r =>
        (Char.ofNat (((a * 16 + b) * 16 + c) * 16 + d) :: r.1, r.2)
    | _, _, _, _ => none
  | '\\' :: e :: rest =>
    let dec : Option Char :=
      if e = '"' then some '"'
      else if e = '\\' then some '\\'
      else if e = '/' then some '/'
      else if e = 'b' then some (Char.ofNat 8)
      else if e = 'f' then some (Char.ofNat 12)
      else if e = 'n' then some '\n'
      else if e = 'r' then some '\r'
      else if e = 't' then some '\t'
      else none
    match dec with
    | some c => (parseStrChars rest).map fun r => (c :: r.1, r.2)
    | none => none
  | c :: rest => (parseStrChars rest).map fun r => (c :: r.1, r.2)

/-- Parse a JSON number (sign, integer part, optional fraction, optional
exponent) into a mantissa/exponent pair. -/
def parseJNum (cs : List Char) : Option (JVal × List Char) :=
  let sr : Int × List Char :=
    match cs with
    | '-' :: rest => (-1, rest)
    | _ => (1, cs)
  let ip := takeDigits sr.2
  if ip.1.isEmpty then none
  else
    let fr : List Nat × List Char :=
      match ip.2 with
      | '.' :: rest => takeDigits rest
      | _ => ([], ip.2)
    let afterFrac : List Char :=
      match ip.2 with
      | '.' :: rest => (takeDigits rest).2
      | _ => ip.2
    if (match ip.2 with | '.' :: _ => fr.1.isEmpty | _ => false) then none
    else
      let er : Option (Int × List Char) :=
        match afterFrac with
        | 'e' :: '-' :: rest =>
          let ed := takeDigits rest
          if ed.1.isEmpty then none else some (-(digitsToNat 10 ed.1 : Int), ed.2)
        | 'e' :: '+' :: rest =>
          let ed := takeDigits rest
          if ed.1.isEmpty then none else some ((digitsToNat 10 ed.1 : Int), ed.2)
        | 'e' :: rest =>
          let ed := takeDigits rest
          if ed.1.isEmpty then none else some ((digitsToNat 10 ed.1 : Int), ed.2)
        | 'E' :: '-' :: rest =>
          let ed := takeDigits rest
          if ed.1.isEmpty then none else some (-(digitsToNat 10 ed.1 : Int), ed.2)
        | 'E' :: '+' :: rest =>
          let ed := takeDigits rest
          if ed.1.isEmpty then none else some ((digitsToNat 10 ed.1 : Int), ed.2)
        | 'E' :: rest =>
          let ed := takeDigits rest
          if ed.1.isEmpty then none else some ((digitsToNat 10 ed.1 : Int), ed.2)
        | _ => some (0, afterFrac)
      match er with
      | none => none
      | some (ex, rest) =>
        let mantissa : Int := sr.1 * (digitsToNat 10 (ip.1 ++ fr.1) : Int)
        some (JVal.jnum mantissa (ex - (fr.1.length : Int)), rest)

mutual

/-- Fuel-bounded JSON value parser (model of the page-context JSON.parse). -/
def parseVal : Nat → List Char → Option (JVal × List Char)
  | 0, _ => none
  | Nat.succ fuel, cs0 =>
    let cs := skipWs cs0
    match cs with
    | 'n' :: 'u' :: 'l' :: 'l' :: rest => some (JVal.jnull, rest)
    | 't' :: 'r' :: 'u' :: 'e' :: rest => some (JVal.jbool true, rest)
    | 'f' :: 'a' :: 'l' :: 's' :: 'e' :: rest => some (JVal.jbool false, rest)
    | '"' :: rest => (parseStrChars rest).map fun r => (JVal.jstr (String.mk r.1), r.2)
    | '[' :: rest =>
      (match skipWs rest with
       | ']' :: rest2 => some (JVal.jarr [], rest2)
       | cs2 => (parseArrItems fuel cs2).map fun r => (JVal.jarr r.1, r.2))
    | '\x7b' :: rest =>
      (match skipWs rest with
       | '\x7d' :: rest2 => some (JVal.jobj [], rest2)
       | cs2 => (parseObjItems fuel cs2).map fun r => (JVal.jobj r.1, r.2))
    | _ => parseJNum cs

/-- Parse one or more comma-separated array items up to the closing bracket. -/
def parseArrItems : Nat → List Char → Option (List JVal × List Char)
  | 0, _ => none
  | Nat.succ fuel, cs =>
    match parseVal fuel cs with
    | none => none
    | some (v, rest) =>
      match skipWs rest with
      | ',' :: rest2 => (parseArrItems fuel rest2).map fun r => (v :: r.1, r.2)
      | ']' :: rest2 => some ([v], rest2)
      | _ => none

/-- Parse one or more comma-separated object members up to the closing brace. -/
def parseObjItems : Nat → List Char → Option (List (String × JVal) × List Char)
  | 0, _ => none
  | Nat.succ fuel, cs =>
    match skipWs cs with
    | '"' :: rest =>
      match parseStrChars rest with
      | none => none
      | some (key, rest2) =>
        match skipWs rest2 with
        | ':' :: rest3 =>
          (match parseVal fuel rest3 with
           | none => none
           | some (v, rest4) =>
             match skipWs rest4 with
             | ',' :: rest5 =>
               (parseObjItems fuel rest5).map fun r => ((String.mk key, v) :: r.1, r.2)
             | '\x7d' :: rest5 => some ([(String.mk key, v)], rest5)
             | _ => none)
        | _ => none
    | _ => none

end

/-- Model of JSON.parse: parse a complete JSON value with nothing but
whitespace after it; any failure is `none` (the thrown SyntaxError). -/
def parseJson (s : String) : Option JVal :=
  match parseVal (2 * s.length + 2) s.data with
  | some (v, rest) => if (skipWs rest).isEmpty then some v else none
  | none => none

/-- JS String.prototype.substring(0, n): the first n characters. -/
def strTake (s : String) (n : Nat) : String :=
  String.mk (s.data.take n)

/-- JS String.prototype.includes: substring containment. -/
def strIncludes (s pat : String) : Bool :=
  s.data.tails.any fun t => pat.data.isPrefixOf t

/-- JS String.prototype.toLowerCase (ASCII model). -/
def strLower (s : String) : String :=
  String.mk (s.data.map Char.toLower)

/-- JS String.prototype.trim: whitespace stripped from both ends. -/
def strTrim (s : String) : String :=
  String.mk ((skipWs (skipWs s.data).reverse).reverse)

/-- JS String.prototype.startsWith. -/
def strStartsWith (s pat : String) : Bool :=
  pat.data.isPrefixOf s.data

/-- A JS value as found on the page's window object.  `wobj` carries a
JSON-serializable object (as its JSON image); `wcirc` stands for an object
on which JSON.stringify throws (e.g. a circular structure); `wfun` carries a
function's source text. -/
inductive WVal : Type where
  | wundef : WVal
  | wnull : WVal
  | wbool : Bool → WVal
  | wnum : Int → WVal
  | wstr : String → WVal
  | wobj : JVal → WVal
  | wcirc : WVal
  | wfun : String → WVal

/-- The JS typeof operator on a window value. -/
def WVal.typeofW : WVal → String
  | .wundef => "undefined"
  | .wnull => "object"
  | .wbool _ => "boolean"
  | .wnum _ => "number"
  | .wstr _ => "string"
  | .wobj _ => "object"
  | .wcirc => "object"
  | .wfun _ => "function"

/-- A window property: reading it either throws or yields a value. -/
inductive WProp : Type where
  | throws : WProp
  | val : WVal → WProp

/-- Propositional-equality association-list lookup. -/
def lookupKey {α : Type} (k : String) : List (String × α) → Option α
  | [] => none
  | (k', v) :: rest => if k = k' then some v else lookupKey k rest

/-- Object.keys of the window model: property names, first occurrence wins
(a JS object cannot hold duplicate keys). -/
def winKeys (w : List (String × WProp)) : List String :=
  (w.map Prod.fst).eraseDups

/-- Reading window[k]: the recorded property, or undefined when absent. -/
def winGet (w : List (String × WProp)) (k : String) : WProp :=
  (lookupKey k w).getD (WProp.val WVal.wundef)

/-- A DOM element as seen by the probes. -/
structure Elem : Type where
  tagName : String
  elemId : String
  className : String
  attrs : List (String × String)
  textContent : String

/-- getAttribute on the element model: the attribute value or null. -/
def Elem.getAttr (el : Elem) (name : String) : Option String :=
  lookupKey name el.attrs

/-- document.querySelectorAll on a given selector either throws (carrying
the error message) or yields the matched elements in document order. -/
inductive QueryRes : Type where
  | throws : String → QueryRes
  | found : List Elem → QueryRes

/-- The rendered page snapshot the single evaluate call runs against.
`initScript` is the text content of the element with id page-init-data when
present; `queries` records the outcome of each selector the assembler uses
(selectors not listed match nothing). -/
structure Page : Type where
  initScript : Option String
  window : List (String × WProp)
  queries : List (String × QueryRes)
  title : String
  url : String
  lsAccessible : Bool
  localStorage : List (String × String)

/-- Run one querySelectorAll against the page snapshot. -/
def Page.query (p : Page) (sel : String) : QueryRes :=
  (lookupKey sel p.queries).getD (QueryRes.found [])

/-- Lift a query result into the evaluate boundary: an uncaught throw from
querySelectorAll aborts the whole evaluation with that error. -/
def liftQ : QueryRes → Except String (List Elem)
  | .throws m => Except.error m
  | .found es => Except.ok es

/-! ### Basic variant (index.js): the evaluate callback of fetchLichessGame -/

/-- Structured-payload probe of the basic variant: parse the page-init-data
script content inside a local try/catch (parse failure leaves null). -/
def basicPageInit (p : Page) : Option JVal :=
  match p.initScript with
  | some content => parseJson (strTrim content)
  | none => none

/-- Key filter of the basic variant's window scan (case-sensitive includes
plus a double-underscore prefix). -/
def basicKeyMatch (key : String) : Bool :=
  strIncludes key "lichess" || strIncludes key "extension" ||
  strIncludes key "chess" || strStartsWith key "__"

/-- One step of the basic window scan: reading the property inside try/catch,
recording the value only when its typeof is object, string or number, and
skipping the property when the read throws. -/
def basicRecord (key : String) : WProp → List (String × WVal)
  | .throws => []
  | .val v =>
    if v.typeofW = "object" ∨ v.typeofW = "string" ∨ v.typeofW = "number"
    then [(key, v)] else []

/-- Global-scan probe of the basic variant: null unless some window key
matches the filter, otherwise the name-to-value map built per key. -/
def basicExtScan (p : Page) : Option (List (String × WVal)) :=
  let keys := (winKeys p.window).filter basicKeyMatch
  if keys.length > 0 then
    some (keys.foldl (fun acc key => acc ++ basicRecord key (winGet p.window key)) [])
  else none

/-- An entry of the basic variant's extensionElements list: tag, class,
attributes and the text content truncated to 500 characters. -/
structure ElemSummary : Type where
  tagName : String
  className : String
  attributes : List (String × String)
  textContent : String

/-- Build one extensionElements entry (textContent.substring(0, 500)). -/
def elemSummary500 (el : Elem) : ElemSummary :=
  { tagName := el.tagName, className := el.className, attributes := el.attrs,
    textContent := strTake el.textContent 500 }

/-- An entry of the basic variant's analysis list. -/
structure AnalysisEntry : Type where
  analysis : Option String
  text : String

/-- The additionalData object of the basic variant. -/
structure BasicAdditional : Type where
  title : String
  url : String
  moves : Option (List String)
  analysis : Option (List AnalysisEntry)
  extensionElements : Option (List ElemSummary)

/-- The DOM-derived probes of the basic variant.  The three querySelectorAll
calls are not wrapped in any try/catch in the source, so a throwing query
aborts the whole evaluation. -/
def basicAdditionalOf (p : Page) : Except String BasicAdditional := do
  let movesQ ← liftQ (p.query ".moves move")
  let aQ ← liftQ (p.query "[data-analysis]")
  let cQ ← liftQ (p.query "[data-lichess-tools], [data-extension], [class*=\"extension\"]")
  pure
    { title := p.title
      url := p.url
      moves := if movesQ.length > 0 then some (movesQ.map (fun m => m.textContent)) else none
      analysis :=
        if aQ.length > 0 then
          some (aQ.map fun el => { analysis := el.getAttr "data-analysis", text := el.textContent })
        else none
      extensionElements :=
        if cQ.length > 0 then some (cQ.map elemSummary500) else none }

/-- The object returned by the basic evaluate callback.  `htmlLength` is
absent there (the handler adds it afterwards). -/
structure BasicGameData : Type where
  pageInitData : Option JVal
  extensionData : Option (List (String × WVal))
  additionalData : BasicAdditional
  htmlLength : Option Nat

/-- The basic variant's result assembler: the whole evaluate callback.
An uncaught throw in any DOM query surfaces as the Except error. -/
def basicAssemble (p : Page) : Except String BasicGameData := do
  let add ← basicAdditionalOf p
  pure
    { pageInitData := basicPageInit p
      extensionData := basicExtScan p
      additionalData := add
      htmlLength := none }

/-! ### Advanced variant (index-advanced.js): the evaluate callback of
fetchLichessGameAdvanced -/

/-- Key filter of the advanced window scan: lowercase includes over five
keywords, or an underscore prefix. -/
def advKeyMatch (key : String) : Bool :=
  let kl := strLower key
  strIncludes kl "lichess" || strIncludes kl "extension" || strIncludes kl "chess" ||
  strIncludes kl "tool" || strIncludes kl "plugin" ||
  strStartsWith key "__" || strStartsWith key "_"

/-- One step of the advanced window scan.  A throwing read - or a throwing
JSON round-trip on a non-serializable object - is caught and recorded as the
placeholder string; null and undefined are skipped; objects are recorded via
JSON.parse(JSON.stringify(.)), functions as source text truncated to 200
characters; other primitives are recorded raw. -/
def advRecord (key : String) : WProp → List (String × WVal)
  | .throws => [(key, WVal.wstr "[Error accessing property]")]
  | .val v =>
    match v with
    | .wnull => []
    | .wundef => []
    | .wobj j => [(key, WVal.wobj j)]
    | .wcirc => [(key, WVal.wstr "[Error accessing property]")]
    | .wfun src => [(key, WVal.wstr (strTake src 200))]
    | .wbool b => [(key, WVal.wbool b)]
    | .wnum n => [(key, WVal.wnum n)]
    | .wstr s => [(key, WVal.wstr s)]

/-- Global-scan probe of the advanced variant; the map is initialized empty
and always present. -/
def advExtScan (p : Page) : List (String × WVal) :=
  let keys := (winKeys p.window).filter advKeyMatch
  keys.foldl (fun acc key => acc ++ advRecord key (winGet p.window key)) []

/-- localStorage probe of the advanced variant: when storage is accessible,
keep the pairs whose lowercased key contains one of the domain keywords;
when storage access throws, the outer catch leaves the map empty. -/
def advLocalStorage (p : Page) : List (String × String) :=
  if p.lsAccessible then
    p.localStorage.foldl
      (fun acc kv =>
        if strIncludes (strLower kv.1) "lichess" || strIncludes (strLower kv.1) "chess" ||
           strIncludes (strLower kv.1) "extension"
        then acc ++ [kv] else acc) []
  else []

/-- An entry of the advanced selector scan. -/
structure AdvElemSummary : Type where
  tag : String
  elemId : String
  classes : String
  attributes : List (String × String)
  text : String

/-- Build one advanced selector-scan entry (text truncated to 300). -/
def advElemSummary (el : Elem) : AdvElemSummary :=
  { tag := el.tagName, elemId := el.elemId, classes := el.className,
    attributes := el.attrs, text := strTake el.textContent 300 }

/-- A player entry of the advanced DOM probe. -/
structure PlayerEntry : Type where
  text : String
  classes : String

/-- An evaluation entry of the advanced DOM probe. -/
structure EvalEntry : Type where
  evalAttr : Option String
  text : String

/-- The fixed list of extension-pattern selectors of the advanced variant. -/
def extensionSelectors : List String :=
  ["[data-lichess-tools]", "[data-extension]", "[class*=\"extension\"]",
   "[class*=\"tool\"]", "[class*=\"enhanced\"]", "[id*=\"extension\"]", "[id*=\"tool\"]"]

/-- The dynamic dom key for a selector: the selector with the characters
[ ] \" ' * removed (the source's replace with a character class). -/
def selectorKey (sel : String) : String :=
  String.mk (sel.data.filter fun c =>
    ¬ (c = '[' ∨ c = ']' ∨ c = '"' ∨ c = '\'' ∨ c = '*'))

/-- The dom object of the advanced variant.  `selectorHits` holds the
dynamically-keyed per-selector lists. -/
structure AdvDom : Type where
  title : String
  url : String
  moves : Option (List String)
  players : Option (List PlayerEntry)
  evaluations : Option (List EvalEntry)
  selectorHits : List (String × List AdvElemSummary)

/-- The DOM probes of the advanced variant, in source order.  The moves,
players and evaluations queries are unguarded (a throw aborts the whole
evaluation); each extension-pattern selector query runs inside its own
try/catch and a throwing selector is skipped. -/
def advDomOf (p : Page) : Except String AdvDom := do
  let movesQ ← liftQ (p.query ".moves move, move")
  let playersQ ← liftQ (p.query ".ruser, .player")
  let evalsQ ← liftQ (p.query "[data-eval], .eval, .evaluation")
  let selectorHits := extensionSelectors.foldl
    (fun acc sel =>
      match p.query sel with
      | .throws _ => acc
      | .found es =>
        if es.length > 0 then acc ++ [(selectorKey sel, es.map advElemSummary)] else acc) []
  pure
    { title := p.title
      url := p.url
      moves := if movesQ.length > 0 then some (movesQ.map fun m => strTrim m.textContent) else none
      players :=
        if playersQ.length > 0 then
          some (playersQ.map fun el => { text := strTrim el.textContent, classes := el.className })
        else none
      evaluations :=
        if evalsQ.length > 0 then
          some (evalsQ.map fun el =>
            ({ evalAttr := el.getAttr "data-eval", text := strTrim el.textContent } : EvalEntry))
        else none
      selectorHits := selectorHits }

/-- The computedData object of the advanced variant. -/
structure AdvComputed : Type where
  moveCount : Option Nat
  jsonScripts : Option (List JVal)

/-- The computed probes of the advanced variant: the unguarded rmoves count
query and the inline-script JSON scan (unguarded query, per-script guarded
JSON.parse). -/
def advComputedOf (p : Page) : Except String AdvComputed := do
  let rmovesQ ← liftQ (p.query ".rmoves move")
  let scriptsQ ← liftQ (p.query "script:not([src])")
  let parsed := scriptsQ.foldl
    (fun acc s =>
      let content := strTrim s.textContent
      if strStartsWith content "\x7b" || strStartsWith content "[" then
        match parseJson content with
        | some j => acc ++ [j]
        | none => acc
      else acc) []
  pure
    { moveCount := if rmovesQ.length > 0 then some rmovesQ.length else none
      jsonScripts := if parsed.length > 0 then some parsed else none }

/-- The object returned by the advanced evaluate callback. -/
structure AdvGameData : Type where
  pageInitData : Option JVal
  extensionData : List (String × WVal)
  dom : AdvDom
  localStorage : List (String × String)
  cookies : List (String × String)
  computedData : AdvComputed

/-- The advanced variant's result assembler: the whole evaluate callback,
with the probes in source order. -/
def advAssemble (p : Page) : Except String AdvGameData := do
  let dom ← advDomOf p
  let comp ← advComputedOf p
  pure
    { pageInitData :=
        match p.initScript with
        | some content => parseJson (strTrim content)
        | none => none
      extensionData := advExtScan p
      dom := dom
      localStorage := advLocalStorage p
      cookies := []
      computedData := comp }

/-! ### Request handlers -/

/-- An incoming HTTP request, restricted to the fields the handlers read.
`none` models an absent query/body field. -/
structure Request : Type where
  method : String
  queryGameId : Option String
  bodyGameId : Option String
  bodyCustomScript : Option String
  queryWaitTime : Option String
  bodyWaitTime : Option String

/-- JS string truthiness: an absent or empty string is falsy. -/
def truthy : Option String → Option String
  | some s => if s = "" then none else some s
  | none => none

/-- JS a || b on optional strings: b when a is falsy. -/
def jsStrOr (a b : Option String) : Option String :=
  match truthy a with
  | some s => some s
  | none => b

/-- A JS number as produced by parseInt: an integer or NaN. -/
inductive JsNum : Type where
  | nan : JsNum
  | num : Int → JsNum
deriving DecidableEq

/-- Shared front end of parseInt with no radix argument: skip leading
whitespace, read an optional sign, detect a 0x/0X hexadecimal prefix, and
take the maximal digit run; returns (sign, base, digits). -/
def parseIntCore (s : String) : Int × Nat × List Nat :=
  let cs := skipWs s.data
  let sr : Int × List Char :=
    match cs with
    | '-' :: rest => (-1, rest)
    | '+' :: rest => (1, rest)
    | _ => (1, cs)
  match sr.2 with
  | '0' :: 'x' :: rest => (sr.1, 16, (takeHexDigits rest).1)
  | '0' :: 'X' :: rest => (sr.1, 16, (takeHexDigits rest).1)
  | rest => (sr.1, 10, (takeDigits rest).1)

/-- Model of parseInt with no radix argument: NaN when no digits follow the
optional whitespace/sign/hex prefix, the signed digit value otherwise. -/
def jsParseInt (s : String) : JsNum :=
  let c := parseIntCore s
  if c.2.2.isEmpty then JsNum.nan
  else JsNum.num (c.1 * (digitsToNat c.2.1 c.2.2 : Int))

/-- Whether a string begins (after whitespace and an optional sign) with a
parseable integer: a nonempty digit run in the detected base. -/
def beginsParseableInt (s : String) : Bool :=
  ¬ (parseIntCore s).2.2.isEmpty

/-- The external-effect events a handler performs, in order. -/
inductive Ev : Type where
  | launch : Ev
  | newPage : Ev
  | interception : Ev
  | setUA : Ev
  | goto : String → Ev
  | inject : Ev
  | delay : JsNum → Ev
  | evaluate : Ev
  | close : Ev
deriving DecidableEq

/-- Number of browser.close calls in a trace. -/
def countClose : List Ev → Nat
  | [] => 0
  | Ev.close :: rest => countClose rest + 1
  | _ :: rest => countClose rest

/-- The JSON response body, with every field optional so that each handler
branch sets exactly the fields its object literal carries. -/
structure Resp (α : Type) : Type where
  status : Nat
  success : Option Bool
  gameId : Option String
  data : Option α
  error : Option String
  stack : Option String
  usage : Option String
  timestamp : Option String

/-- The behavior of the external collaborators during one request: whether
each fallible step throws (and with what message), the rendered page the
evaluate call sees, the page HTML and the current timestamp. -/
structure World : Type where
  launchErr : Option String
  newPageErr : Option String
  gotoErr : Option String
  injectErr : Option String
  page : Page
  html : String
  now : String

/-- The game-page URL for a gameId. -/
def lichessUrl (gid : String) : String := "https://lichess.org/" ++ gid

/-- The 204 preflight response. -/
def resp204 {α : Type} : Resp α :=
  { status := 204, success := none, gameId := none, data := none,
    error := none, stack := none, usage := none, timestamp := none }

/-- The 400 missing-gameId response of the basic handler. -/
def basic400 {α : Type} : Resp α :=
  { status := 400, success := none, gameId := none, data := none,
    error := some "Missing gameId parameter",
    stack := none,
    usage := some "Call with ?gameId=YOUR_GAME_ID or POST with \x7b\"gameId\": \"YOUR_GAME_ID\"\x7d",
    timestamp := none }

/-- The 400 missing-gameId response of the advanced handler. -/
def adv400 {α : Type} : Resp α :=
  { status := 400, success := none, gameId := none, data := none,
    error := some "Missing gameId parameter",
    stack := none, usage := none, timestamp := none }

/-- The basic handler's 500 error response. -/
def basic500 {α : Type} (gid msg : String) : Resp α :=
  { status := 500, success := some false, gameId := some gid, data := none,
    error := some msg, stack := none, usage := none, timestamp := none }

/-- The advanced handler's 500 error response (it also carries the stack,
modelled as the same opaque thrown-error string). -/
def adv500 {α : Type} (gid msg : String) : Resp α :=
  { status := 500, success := some false, gameId := some gid, data := none,
    error := some msg, stack := some msg, usage := none, timestamp := none }

/-- The 200 success response of either handler. -/
def resp200 {α : Type} (gid : String) (d : α) (now : String) : Resp α :=
  { status := 200, success := some true, gameId := some gid, data := some d,
    error := none, stack := none, usage := none, timestamp := some now }

/-- The basic handler fetchLichessGame: CORS preflight, gameId validation,
browser launch, navigation, fixed 3000ms settle delay, the single evaluate,
the html-length post-processing, close, and the response envelope; any throw
lands in the catch block, which closes the browser iff it was launched. -/
def basicFetch (req : Request) (w : World) : Resp BasicGameData × List Ev :=
  if req.method = "OPTIONS" then (resp204, [])
  else
    match truthy (jsStrOr req.queryGameId req.bodyGameId) with
    | none => (basic400, [])
    | some gid =>
      match w.launchErr with
      | some e => (basic500 gid e, [])
      | none =>
        match w.newPageErr with
        | some e => (basic500 gid e, [Ev.launch, Ev.close])
        | none =>
          match w.gotoErr with
          | some e =>
            (basic500 gid e,
             [Ev.launch, Ev.newPage, Ev.setUA, Ev.goto (lichessUrl gid), Ev.close])
          | none =>
            match basicAssemble w.page with
            | Except.error e =>
              (basic500 gid e,
               [Ev.launch, Ev.newPage, Ev.setUA, Ev.goto (lichessUrl gid),
                Ev.delay (JsNum.num 3000), Ev.evaluate, Ev.close])
            | Except.ok env =>
              (resp200 gid { env with htmlLength := some w.html.length } w.now,
               [Ev.launch, Ev.newPage, Ev.setUA, Ev.goto (lichessUrl gid),
                Ev.delay (JsNum.num 3000), Ev.evaluate, Ev.close])

/-- The raw waitTime string of the advanced handler:
req.query.waitTime || req.body.waitTime || the literal 5000. -/
def advWaitRaw (req : Request) : String :=
  (truthy (jsStrOr req.queryWaitTime req.bodyWaitTime)).getD "5000"

/-- The settle delay of the advanced handler: parseInt of the raw waitTime
string, with no validation of the result. -/
def advWaitTime (req : Request) : JsNum := jsParseInt (advWaitRaw req)

/-- The tail of the advanced handler after a successful (or absent)
injection: settle delay, the single evaluate, close, response. -/
def advTail (req : Request) (w : World) (gid : String) (pre : List Ev) :
    Resp AdvGameData × List Ev :=
  match advAssemble w.page with
  | Except.error e =>
    (adv500 gid e, pre ++ [Ev.delay (advWaitTime req), Ev.evaluate, Ev.close])
  | Except.ok env =>
    (resp200 gid env w.now, pre ++ [Ev.delay (advWaitTime req), Ev.evaluate, Ev.close])

/-- The advanced handler fetchLichessGameAdvanced: preflight, validation,
launch, request interception, navigation, optional custom-script injection
(before the settle delay and the evaluate), settle delay of parseInt(waitTime),
the single evaluate, close, and the response envelope; any throw lands in the
catch block, which closes the browser iff it was launched. -/
def advFetch (req : Request) (w : World) : Resp AdvGameData × List Ev :=
  if req.method = "OPTIONS" then (resp204, [])
  else
    match truthy (jsStrOr req.queryGameId req.bodyGameId) with
    | none => (adv400, [])
    | some gid =>
      match w.launchErr with
      | some e => (adv500 gid e, [])
      | none =>
        match w.newPageErr with
        | some e => (adv500 gid e, [Ev.launch, Ev.close])
        | none =>
          match w.gotoErr with
          | some e =>
            (adv500 gid e,
             [Ev.launch, Ev.newPage, Ev.interception, Ev.setUA,
              Ev.goto (lichessUrl gid), Ev.close])
          | none =>
            let pre := [Ev.launch, Ev.newPage, Ev.interception, Ev.setUA,
                        Ev.goto (lichessUrl gid)]
            match truthy req.bodyCustomScript with
            | some _ =>
              match w.injectErr with
              | some e => (adv500 gid e, pre ++ [Ev.inject, Ev.close])
              | none => advTail req w gid (pre ++ [Ev.inject])
            | none => advTail req w gid pre

/-! ### Helper facts about the embedding -/

/-- The per-selector contribution of the advanced extension-pattern scan:
empty when the selector's query throws (the per-selector catch) or matches
nothing, a single dynamically-keyed entry otherwise. -/
def advSelectorHit (p : Page) (sel : String) : List (String × List AdvElemSummary) :=
  match p.query sel with
  | .throws _ => []
  | .found es =>
    if es.length > 0 then [(selectorKey sel, es.map advElemSummary)] else []

theorem foldl_step_bind {α β : Type} (step : List β → α → List β) (g : α → List β)
    (h : ∀ acc x, step acc x = acc ++ g x) :
    ∀ (l : List α) (acc : List β), l.foldl step acc = acc ++ l.flatMap g := by
  intro l
  induction l with
  | nil => intro acc; simp
  | cons x xs ih =>
    intro acc
    simp only [List.foldl_cons, List.flatMap_cons, h]
    rw [ih]
    simp

theorem strTake_length_le (s : String) (n : Nat) : (strTake s n).length ≤ n := by
  show (s.data.take n).length ≤ n
  rw [List.length_take]
  exact min_le_left _ _

theorem mem_basicRecord {key : String} {wp : WProp} {pr : String × WVal}
    (h : pr ∈ basicRecord key wp) :
    pr.1 = key ∧ (pr.2.typeofW = "object" ∨ pr.2.typeofW = "string" ∨ pr.2.typeofW = "number") := by
  cases wp with
  | throws => simp [basicRecord] at h
  | val v =>
    simp only [basicRecord] at h
    split at h
    · rcases List.mem_singleton.mp h with rfl
      exact ⟨rfl, by assumption⟩
    · simp at h

theorem mem_advRecord {key : String} {wp : WProp} {pr : String × WVal}
    (h : pr ∈ advRecord key wp) :
    pr.1 = key ∧
      ((∃ b, pr.2 = WVal.wbool b) ∨ (∃ n, pr.2 = WVal.wnum n) ∨
       (∃ s, pr.2 = WVal.wstr s) ∨ (∃ j, pr.2 = WVal.wobj j)) := by
  cases wp with
  | throws =>
    rcases List.mem_singleton.mp h with rfl
    exact ⟨rfl, Or.inr (Or.inr (Or.inl ⟨_, rfl⟩))⟩
  | val v =>
    cases v <;> simp only [advRecord] at h <;>
      first
      | (rcases List.mem_singleton.mp h with rfl;
         refine ⟨rfl, ?_⟩;
         first
         | exact Or.inl ⟨_, rfl⟩
         | exact Or.inr (Or.inl ⟨_, rfl⟩)
         | exact Or.inr (Or.inr (Or.inl ⟨_, rfl⟩))
         | exact Or.inr (Or.inr (Or.inr ⟨_, rfl⟩)))
      | simp at h

theorem basicExtScan_eq_bind (p : Page) :
    basicExtScan p =
      (if ((winKeys p.window).filter basicKeyMatch).length > 0 then
        some (((winKeys p.window).filter basicKeyMatch).flatMap
          fun key => basicRecord key (winGet p.window key))
      else none) := by
  have hf := foldl_step_bind (fun acc key => acc ++ basicRecord key (winGet p.window key))
    (fun key => basicRecord key (winGet p.window key)) (fun _ _ => rfl)
    ((winKeys p.window).filter basicKeyMatch) []
  simp only [List.nil_append] at hf
  simp only [basicExtScan, hf]

theorem advExtScan_eq_bind (p : Page) :
    advExtScan p =
      ((winKeys p.window).filter advKeyMatch).flatMap
        fun key => advRecord key (winGet p.window key) := by
  have hf := foldl_step_bind (fun acc key => acc ++ advRecord key (winGet p.window key))
    (fun key => advRecord key (winGet p.window key)) (fun _ _ => rfl)
    ((winKeys p.window).filter advKeyMatch) []
  simp only [List.nil_append] at hf
  simp only [advExtScan, hf]

theorem basicAssemble_ok {p : Page} {env : BasicGameData}
    (h : basicAssemble p = Except.ok env) :
    basicPageInit p = env.pageInitData ∧ basicExtScan p = env.extensionData ∧
      basicAdditionalOf p = Except.ok env.additionalData ∧ env.htmlLength = none := by
  unfold basicAssemble at h
  cases hadd : basicAdditionalOf p with
  | error m => rw [hadd] at h; simp [Bind.bind, Except.bind] at h
  | ok add =>
    rw [hadd] at h
    simp only [Bind.bind, Except.bind, pure, Except.pure, Except.ok.injEq] at h
    subst h
    exact ⟨rfl, rfl, rfl, rfl⟩

theorem basicAdditionalOf_ok {p : Page} {add : BasicAdditional}
    (h : basicAdditionalOf p = Except.ok add) :
    ∃ movesQ aQ cQ,
      p.query ".moves move" = QueryRes.found movesQ ∧
      p.query "[data-analysis]" = QueryRes.found aQ ∧
      p.query "[data-lichess-tools], [data-extension], [class*=\"extension\"]" =
        QueryRes.found cQ ∧
      add.extensionElements =
        (if cQ.length > 0 then some (cQ.map elemSummary500) else none) := by
  unfold basicAdditionalOf at h
  cases h1 : p.query ".moves move" with
  | throws m => rw [h1] at h; simp [liftQ, Bind.bind, Except.bind] at h
  | found movesQ =>
    rw [h1] at h
    cases h2 : p.query "[data-analysis]" with
    | throws m => rw [h2] at h; simp [liftQ, Bind.bind, Except.bind] at h
    | found aQ =>
      rw [h2] at h
      cases h3 : p.query "[data-lichess-tools], [data-extension], [class*=\"extension\"]" with
      | throws m => rw [h3] at h; simp [liftQ, Bind.bind, Except.bind] at h
      | found cQ =>
        rw [h3] at h
        simp only [liftQ, Bind.bind, Except.bind, pure, Except.pure, Except.ok.injEq] at h
        exact ⟨movesQ, aQ, cQ, rfl, rfl, rfl, by rw [← h]⟩

theorem advAssemble_ok {p : Page} {env : AdvGameData}
    (h : advAssemble p = Except.ok env) :
    advExtScan p = env.extensionData ∧ advDomOf p = Except.ok env.dom ∧
      (match p.initScript with
       | some content => parseJson (strTrim content)
       | none => none) = env.pageInitData := by
  unfold advAssemble at h
  cases hdom : advDomOf p with
  | error m => rw [hdom] at h; simp [Bind.bind, Except.bind] at h
  | ok dom =>
    rw [hdom] at h
    cases hcomp : advComputedOf p with
    | error m => rw [hcomp] at h; simp [Bind.bind, Except.bind] at h
    | ok comp =>
      rw [hcomp] at h
      simp only [Bind.bind, Except.bind, pure, Except.pure, Except.ok.injEq] at h
      subst h
      exact ⟨rfl, rfl, rfl⟩

theorem advDomOf_ok {p : Page} {d : AdvDom} (h : advDomOf p = Except.ok d) :
    d.selectorHits = extensionSelectors.flatMap (advSelectorHit p) := by
  unfold advDomOf at h
  cases h1 : p.query ".moves move, move" with
  | throws m => rw [h1] at h; simp [liftQ, Bind.bind, Except.bind] at h
  | found movesQ =>
    rw [h1] at h
    cases h2 : p.query ".ruser, .player" with
    | throws m => rw [h2] at h; simp [liftQ, Bind.bind, Except.bind] at h
    | found playersQ =>
      rw [h2] at h
      cases h3 : p.query "[data-eval], .eval, .evaluation" with
      | throws m => rw [h3] at h; simp [liftQ, Bind.bind, Except.bind] at h
      | found evalsQ =>
        rw [h3] at h
        simp only [liftQ, Bind.bind, Except.bind, pure, Except.pure, Except.ok.injEq] at h
        have hfold :
            (extensionSelectors.foldl
              (fun acc sel =>
                match p.query sel with
                | .throws _ => acc
                | .found es =>
                  if es.length > 0 then acc ++ [(selectorKey sel, es.map advElemSummary)]
                  else acc) []) =
            extensionSelectors.flatMap (advSelectorHit p) := by
          rw [foldl_step_bind _ (advSelectorHit p) ?_]
          · simp
          · intro acc sel
            unfold advSelectorHit
            cases p.query sel with
            | throws m => simp
            | found es =>
              by_cases hlen : es.length > 0
              · simp [hlen]
              · simp [hlen]
        rw [← h]
        exact hfold

/-! ### Concrete inputs used by counterexamples and witnesses -/

/-- A long piece of element text (600 characters), longer than every cap. -/
def longText : String := String.mk (List.replicate 600 'x')

/-- A page carrying one custom-selector element with 600 characters of text,
for exercising the truncation bound. -/
def truncPage : Page :=
  { initScript := none
    window := []
    queries :=
      [("[data-lichess-tools], [data-extension], [class*=\"extension\"]",
        QueryRes.found [⟨"DIV", "", "extension-widget", [("data-extension", "1")], longText⟩]),
       ("[class*=\"extension\"]",
        QueryRes.found [⟨"DIV", "d1", "extension-widget", [], longText⟩])]
    title := "t"
    url := "u"
    lsAccessible := true
    localStorage := [] }

/-- A page on which the move-list query throws while a custom-selector
element is present. -/
def throwingQueryPage : Page :=
  { initScript := none
    window := []
    queries :=
      [(".moves move", QueryRes.throws "query failed"),
       ("[data-lichess-tools], [data-extension], [class*=\"extension\"]",
        QueryRes.found [⟨"DIV", "", "extension-widget", [], "hello"⟩])]
    title := "t"
    url := "u"
    lsAccessible := true
    localStorage := [] }

/-- A window on which reading the matching property __ext throws. -/
def throwingPropPage : Page :=
  { initScript := none
    window := [("__ext", WProp.throws)]
    queries := []
    title := ""
    url := ""
    lsAccessible := true
    localStorage := [] }

/-- An entirely benign minimal page. -/
def plainPage : Page :=
  { initScript := none
    window := []
    queries := []
    title := "t"
    url := "u"
    lsAccessible := true
    localStorage := [] }

/-- A page whose page-init-data script exists but holds invalid JSON. -/
def badInitPage : Page :=
  { plainPage with initScript := some "not json at all" }

/-- A well-formed GET request for game g1. -/
def okRequest : Request :=
  { method := "GET", queryGameId := some "g1", bodyGameId := none,
    bodyCustomScript := none, queryWaitTime := none, bodyWaitTime := none }

/-- A request with no usable gameId (query absent, body empty). -/
def noIdRequest : Request :=
  { method := "GET", queryGameId := none, bodyGameId := some "",
    bodyCustomScript := none, queryWaitTime := none, bodyWaitTime := none }

/-- A POST request with a custom script and a non-numeric waitTime. -/
def scriptRequest : Request :=
  { method := "POST", queryGameId := some "g1", bodyGameId := none,
    bodyCustomScript := some "window.__marker = 1", queryWaitTime := some "abc",
    bodyWaitTime := none }

/-- A world in which every external step succeeds, over the plain page. -/
def okWorld : World :=
  { launchErr := none, newPageErr := none, gotoErr := none, injectErr := none,
    page := plainPage, html := "abcdefghijkl", now := "2026-01-01T00:00:00.000Z" }

/-- A world in which the browser fails to launch. -/
def launchFailWorld : World :=
  { okWorld with launchErr := some "could not launch browser" }

/-- A world in which the injected custom script throws. -/
def injectFailWorld : World :=
  { okWorld with injectErr := some "SyntaxError: Unexpected token" }

/-! ### C2: custom-selector text truncation -/

/-- C2: every text field extracted by the custom-selector scan probe is at
most 500 characters long, whatever the element's text length: the basic
variant truncates extensionElements text to 500 characters and the advanced
variant truncates its per-selector entries to 300, hence also within 500. -/
theorem c2_custom_selector_truncation :
    (∀ (p : Page) (env : BasicGameData), basicAssemble p = Except.ok env →
      ∀ (l : List ElemSummary), env.additionalData.extensionElements = some l →
        ∀ e ∈ l, e.textContent.length ≤ 500) ∧
    (∀ (p : Page) (env : AdvGameData), advAssemble p = Except.ok env →
      ∀ (k : String) (l : List AdvElemSummary), (k, l) ∈ env.dom.selectorHits →
        ∀ e ∈ l, e.text.length ≤ 500) := by
  constructor
  · intro p env hok l hl e he
    obtain ⟨-, -, hadd, -⟩ := basicAssemble_ok hok
    obtain ⟨movesQ, aQ, cQ, -, -, -, hext⟩ := basicAdditionalOf_ok hadd
    rw [hext] at hl
    split at hl
    · have hl' : cQ.map elemSummary500 = l := Option.some.inj hl
      subst hl'
      rcases List.mem_map.mp he with ⟨el, -, rfl⟩
      exact strTake_length_le el.textContent 500
    · simp at hl
  · intro p env hok k l hkl e he
    obtain ⟨-, hdom, -⟩ := advAssemble_ok hok
    have hsel := advDomOf_ok hdom
    rw [hsel] at hkl
    rcases List.mem_flatMap.mp hkl with ⟨sel, -, hmem⟩
    unfold advSelectorHit at hmem
    rcases hq : Page.query p sel with m | es <;> rw [hq] at hmem <;> dsimp only at hmem
    · simp at hmem
    · by_cases hlen : es.length > 0
      · rw [if_pos hlen] at hmem
        have h2 := List.mem_singleton.mp hmem
        have hl' : l = List.map advElemSummary es := by
          have h3 := congrArg Prod.snd h2
          simpa using h3
        subst hl'
        rcases List.mem_map.mp he with ⟨el, -, rfl⟩
        have h3 : (advElemSummary el).text.length ≤ 300 := strTake_length_le el.textContent 300
        omega
      · rw [if_neg hlen] at hmem
        simp at hmem

/-- Witness for C2: a concrete 600-character element yields a 500-character
basic entry and a 300-character advanced entry, both within the 500 bound. -/
theorem c2_witness :
    (∀ e ∈ [elemSummary500 ⟨"DIV", "", "extension-widget", [("data-extension", "1")], longText⟩],
      e.textContent.length ≤ 500) ∧
    (∀ e ∈ [advElemSummary ⟨"DIV", "d1", "extension-widget", [], longText⟩],
      e.text.length ≤ 500) := by
  constructor
  · exact c2_custom_selector_truncation.1 truncPage
      { pageInitData := none, extensionData := none,
        additionalData :=
          { title := "t", url := "u", moves := none, analysis := none,
            extensionElements :=
              some [elemSummary500 ⟨"DIV", "", "extension-widget", [("data-extension", "1")], longText⟩] },
        htmlLength := none }
      (by rfl) _ rfl
  · exact c2_custom_selector_truncation.2 truncPage
      { pageInitData := none, extensionData := [],
        dom :=
          { title := "t", url := "u", moves := none, players := none, evaluations := none,
            selectorHits :=
              [("class=extension", [advElemSummary ⟨"DIV", "d1", "extension-widget", [], longText⟩])] },
        localStorage := [], cookies := [],
        computedData := { moveCount := none, jsonScripts := none } }
      (by rfl) "class=extension" _ (List.mem_singleton.mpr rfl)

/-! ### C1: probe fault isolation -/

/-- A world whose page makes the move-list query throw. -/
def throwingQueryWorld : World := { okWorld with page := throwingQueryPage }

/-- The sibling fragments of the basic envelope from the point of view of the
global-scan probe: everything except extensionData. -/
def basicSiblings (e : BasicGameData) : Option JVal × BasicAdditional :=
  (e.pageInitData, e.additionalData)

/-- The sibling fragments of the advanced envelope from the point of view of
the global-scan probe: everything except extensionData. -/
def advSiblings (e : AdvGameData) :
    Option JVal × AdvDom × List (String × String) × AdvComputed :=
  (e.pageInitData, e.dom, e.localStorage, e.computedData)

/-- Counterexample to C1: on a page where the move-list probe's underlying
query throws, the basic result assembler does not return an envelope at all -
the error escapes the evaluate boundary (and the handler then answers 500
with no data), so the sibling probes' fragments are not populated. -/
theorem c1_counterexample :
    basicAssemble throwingQueryPage = Except.error "query failed" ∧
    (basicFetch okRequest throwingQueryWorld).1.status = 500 ∧
    (basicFetch okRequest throwingQueryWorld).1.data = none :=
  ⟨rfl, rfl, rfl⟩

/-- C1 as amended: fault isolation holds only for the probes whose bodies are
wrapped in try/catch.  Faults in the global scan (any window contents,
including throwing properties) never change the sibling fragments or abort
assembly, in either variant; but the unguarded DOM queries are not isolated:
a throwing move-list query aborts the whole evaluation with that error, so
the later probes never contribute and the handler returns the error
envelope. -/
theorem c1_amended :
    (∀ (p : Page) (win1 win2 : List (String × WProp)),
      Except.map basicSiblings (basicAssemble { p with window := win1 }) =
        Except.map basicSiblings (basicAssemble { p with window := win2 })) ∧
    (∀ (p : Page) (win1 win2 : List (String × WProp)),
      Except.map advSiblings (advAssemble { p with window := win1 }) =
        Except.map advSiblings (advAssemble { p with window := win2 })) ∧
    (∀ (p : Page) (m : String), p.query ".moves move" = QueryRes.throws m →
      basicAssemble p = Except.error m) ∧
    (∀ (p : Page) (m : String), p.query ".moves move, move" = QueryRes.throws m →
      advAssemble p = Except.error m) := by
  refine ⟨?_, ?_, ?_, ?_⟩
  · intro p win1 win2
    unfold basicAssemble
    have h1 : basicAdditionalOf { p with window := win1 } = basicAdditionalOf p := rfl
    have h2 : basicAdditionalOf { p with window := win2 } = basicAdditionalOf p := rfl
    rw [h1, h2]
    cases basicAdditionalOf p <;>
      simp [Bind.bind, Except.bind, pure, Except.pure, Except.map, basicSiblings, basicPageInit]
  · intro p win1 win2
    unfold advAssemble
    have h1 : advDomOf { p with window := win1 } = advDomOf p := rfl
    have h2 : advDomOf { p with window := win2 } = advDomOf p := rfl
    have h3 : advComputedOf { p with window := win1 } = advComputedOf p := rfl
    have h4 : advComputedOf { p with window := win2 } = advComputedOf p := rfl
    rw [h1, h2, h3, h4]
    cases advDomOf p <;> cases advComputedOf p <;>
      simp [Bind.bind, Except.bind, pure, Except.pure, Except.map, advSiblings, advLocalStorage]
  · intro p m h
    unfold basicAssemble basicAdditionalOf
    rw [h]
    simp [liftQ, Bind.bind, Except.bind]
  · intro p m h
    unfold advAssemble advDomOf
    rw [h]
    simp [liftQ, Bind.bind, Except.bind]

/-- Witness for C1 as amended: a concrete throwing window property leaves
the basic sibling fragments identical to those of an empty window, and the
concrete throwing move-list query aborts the basic assembler. -/
theorem c1_amended_witness :
    Except.map basicSiblings (basicAssemble { plainPage with window := [("lichessX", WProp.throws)] }) =
      Except.map basicSiblings (basicAssemble { plainPage with window := [] }) ∧
    basicAssemble throwingQueryPage = Except.error "query failed" :=
  ⟨c1_amended.1 plainPage [("lichessX", WProp.throws)] [],
   c1_amended.2.2.1 throwingQueryPage "query failed" rfl⟩

/-! ### C3: missing gameId -/

/-- C3: for every non-preflight request whose gameId is missing or empty in
both the query and the body, both handlers answer HTTP 400 and perform no
external step at all - in particular no renderer launch and no navigation. -/
theorem c3_missing_gameId :
    ∀ (req : Request) (w : World),
      req.method ≠ "OPTIONS" →
      (req.queryGameId = none ∨ req.queryGameId = some "") →
      (req.bodyGameId = none ∨ req.bodyGameId = some "") →
      (basicFetch req w).1.status = 400 ∧ (basicFetch req w).2 = [] ∧
      (advFetch req w).1.status = 400 ∧ (advFetch req w).2 = [] := by
  intro req w hm hq hb
  have ht : truthy (jsStrOr req.queryGameId req.bodyGameId) = none := by
    rcases hq with h | h <;> rcases hb with h' | h' <;> simp [truthy, jsStrOr, h, h']
  refine ⟨?_, ?_, ?_, ?_⟩ <;>
    simp [basicFetch, advFetch, ht, hm, basic400, adv400]

/-- Witness for C3: the concrete request with no query gameId and an empty
body gameId gets 400 from both handlers with an empty event trace. -/
theorem c3_witness :
    (basicFetch noIdRequest okWorld).1.status = 400 ∧ (basicFetch noIdRequest okWorld).2 = [] ∧
    (advFetch noIdRequest okWorld).1.status = 400 ∧ (advFetch noIdRequest okWorld).2 = [] :=
  c3_missing_gameId noIdRequest okWorld (by decide) (Or.inl rfl) (Or.inr rfl)

/-! ### C4: renderer released exactly once -/

/-- C4: whenever a handler run launched the browser, its event trace contains
exactly one browser.close, on every exit path - success, navigation failure,
injected-script failure and an evaluate-level (probe) failure alike. -/
theorem c4_renderer_released_once :
    ∀ (req : Request) (w : World),
      (Ev.launch ∈ (basicFetch req w).2 → countClose (basicFetch req w).2 = 1) ∧
      (Ev.launch ∈ (advFetch req w).2 → countClose (advFetch req w).2 = 1) := by
  intro req w
  constructor
  · unfold basicFetch
    repeat' split
    all_goals intro h
    all_goals first | rfl | simp at h
  · unfold advFetch advTail
    repeat' split
    all_goals intro h
    all_goals first | rfl | simp at h

/-- Witness for C4: on the concrete all-success run of each handler the
browser was launched and closed exactly once. -/
theorem c4_witness :
    countClose (basicFetch okRequest okWorld).2 = 1 ∧
    countClose (advFetch okRequest okWorld).2 = 1 :=
  ⟨(c4_renderer_released_once okRequest okWorld).1 (by decide),
   (c4_renderer_released_once okRequest okWorld).2 (by decide)⟩

/-! ### C7: response envelope invariant -/

/-- C7: every response either handler produces satisfies the envelope
invariant: success=false implies data is absent and error is populated, and
success=true implies error is absent. -/
theorem c7_response_envelope_invariant :
    ∀ (req : Request) (w : World),
      ((basicFetch req w).1.success = some false →
        (basicFetch req w).1.data = none ∧ (basicFetch req w).1.error ≠ none) ∧
      ((basicFetch req w).1.success = some true → (basicFetch req w).1.error = none) ∧
      ((advFetch req w).1.success = some false →
        (advFetch req w).1.data = none ∧ (advFetch req w).1.error ≠ none) ∧
      ((advFetch req w).1.success = some true → (advFetch req w).1.error = none) := by
  intro req w
  refine ⟨?_, ?_, ?_, ?_⟩ <;>
  · simp only [basicFetch, advFetch, advTail]
    repeat' split
    all_goals intro h
    all_goals simp_all [resp204, basic400, adv400, basic500, adv500, resp200]

/-- Witness for C7: the concrete launch-failure run has success=false, and
indeed carries no data and a populated error field. -/
theorem c7_witness :
    (basicFetch okRequest launchFailWorld).1.data = none ∧
    (basicFetch okRequest launchFailWorld).1.error ≠ none :=
  (c7_response_envelope_invariant okRequest launchFailWorld).1 rfl

/-! ### C5: global-scan per-property failure policy -/

/-- Counterexample to C5: in the advanced variant, a matching window property
whose read throws is not skipped - the probe records an entry for it whose
value is the placeholder string. -/
theorem c5_counterexample :
    advExtScan throwingPropPage = [("__ext", WVal.wstr "[Error accessing property]")] :=
  rfl

/-- C5 as amended: the basic variant's global scan skips a throwing property
(no entry for it), but the advanced variant records the placeholder string
for that key instead.  The recorded values are bounded as the code bounds
them: the basic scan records only values whose typeof is object, string or
number (which admits null and non-JSON-serializable objects), and the
advanced scan records only booleans, numbers, strings and JSON-round-tripped
objects. -/
theorem c5_amended :
    (∀ (p : Page) (k : String), winGet p.window k = WProp.throws →
      ∀ v : WVal, (k, v) ∉ (basicExtScan p).getD []) ∧
    (∀ (p : Page) (k : String), winGet p.window k = WProp.throws →
      k ∈ (winKeys p.window).filter advKeyMatch →
      (k, WVal.wstr "[Error accessing property]") ∈ advExtScan p) ∧
    (∀ (p : Page) (k : String) (v : WVal), (k, v) ∈ (basicExtScan p).getD [] →
      v.typeofW = "object" ∨ v.typeofW = "string" ∨ v.typeofW = "number") ∧
    (∀ (p : Page) (k : String) (v : WVal), (k, v) ∈ advExtScan p →
      (∃ b, v = WVal.wbool b) ∨ (∃ n, v = WVal.wnum n) ∨
      (∃ s, v = WVal.wstr s) ∨ (∃ j, v = WVal.wobj j)) := by
  refine ⟨?_, ?_, ?_, ?_⟩
  · intro p k hk v hmem
    rw [basicExtScan_eq_bind] at hmem
    split at hmem
    · rw [Option.getD_some] at hmem
      rcases List.mem_flatMap.mp hmem with ⟨key, -, hrec⟩
      have h1 := (mem_basicRecord hrec).1
      have hkey : key = k := h1.symm
      subst hkey
      rw [hk] at hrec
      simp [basicRecord] at hrec
    · simp at hmem
  · intro p k hk hf
    rw [advExtScan_eq_bind]
    refine List.mem_flatMap.mpr ⟨k, hf, ?_⟩
    rw [hk]
    simp [advRecord]
  · intro p k v hmem
    rw [basicExtScan_eq_bind] at hmem
    split at hmem
    · rw [Option.getD_some] at hmem
      rcases List.mem_flatMap.mp hmem with ⟨key, -, hrec⟩
      exact (mem_basicRecord hrec).2
    · simp at hmem
  · intro p k v hmem
    rw [advExtScan_eq_bind] at hmem
    rcases List.mem_flatMap.mp hmem with ⟨key, -, hrec⟩
    exact (mem_advRecord hrec).2

/-- Witness for C5 as amended: on the concrete throwing property __ext the
basic scan has no entry while the advanced scan records the placeholder. -/
theorem c5_amended_witness :
    ("__ext", WVal.wnum 0) ∉ (basicExtScan throwingPropPage).getD [] ∧
    ("__ext", WVal.wstr "[Error accessing property]") ∈ advExtScan throwingPropPage :=
  ⟨c5_amended.1 throwingPropPage "__ext" rfl (WVal.wnum 0),
   c5_amended.2.1 throwingPropPage "__ext" rfl (by decide)⟩

/-! ### C6: structured-payload absence or invalid JSON -/

/-- C6: when the page-init-data script element is absent or its content does
not parse as JSON, both assemblers behave exactly as on the same page with
the element absent - the structured-payload fragment is null and every other
fragment is unaffected. -/
theorem c6_structured_payload_isolation :
    ∀ p : Page,
      (p.initScript = none ∨ ∃ c, p.initScript = some c ∧ parseJson (strTrim c) = none) →
      basicAssemble p = basicAssemble { p with initScript := none } ∧
      (∀ env, basicAssemble p = Except.ok env → env.pageInitData = none) ∧
      advAssemble p = advAssemble { p with initScript := none } ∧
      (∀ env, advAssemble p = Except.ok env → env.pageInitData = none) := by
  intro p hp
  have hmatch :
      (match p.initScript with
       | some content => parseJson (strTrim content)
       | none => none) = (none : Option JVal) := by
    rcases hp with h | ⟨c, hc, hparse⟩
    · rw [h]
    · rw [hc]
      exact hparse
  have hpi : basicPageInit p = none := hmatch
  have hpi2 : basicPageInit { p with initScript := none } = none := rfl
  refine ⟨?_, ?_, ?_, ?_⟩
  · unfold basicAssemble
    have hadd : basicAdditionalOf { p with initScript := none } = basicAdditionalOf p := rfl
    have hext : basicExtScan { p with initScript := none } = basicExtScan p := rfl
    rw [hadd]
    cases basicAdditionalOf p <;>
      simp [Bind.bind, Except.bind, pure, Except.pure, hpi, hpi2, hext]
  · intro env hok
    obtain ⟨h1, -, -, -⟩ := basicAssemble_ok hok
    rw [← h1]
    exact hpi
  · unfold advAssemble
    have hd : advDomOf { p with initScript := none } = advDomOf p := rfl
    have hc : advComputedOf { p with initScript := none } = advComputedOf p := rfl
    have he : advExtScan { p with initScript := none } = advExtScan p := rfl
    have hl : advLocalStorage { p with initScript := none } = advLocalStorage p := rfl
    rw [hd, hc]
    cases advDomOf p <;> cases advComputedOf p <;>
      simp [Bind.bind, Except.bind, pure, Except.pure, hmatch, he, hl]
  · intro env hok
    obtain ⟨-, -, h3⟩ := advAssemble_ok hok
    rw [← h3]
    exact hmatch

/-- Witness for C6: with the concrete unparseable payload the assemblers
coincide with those of the payload-free page. -/
theorem c6_witness :
    basicAssemble badInitPage = basicAssemble { badInitPage with initScript := none } ∧
    advAssemble badInitPage = advAssemble { badInitPage with initScript := none } := by
  have h := c6_structured_payload_isolation badInitPage
    (Or.inr ⟨"not json at all", rfl, by rfl⟩)
  exact ⟨h.1, h.2.2.1⟩

/-! ### C8: custom-script injection ordering and failure -/

/-- Event a occurs strictly before event b in the trace l. -/
def evBefore (a b : Ev) (l : List Ev) : Prop :=
  ∃ l1 l2 l3, l = l1 ++ a :: l2 ++ b :: l3

/-- C8: on an advanced request carrying a custom script, once navigation has
succeeded the script is evaluated in page context after the navigation and
before any settle delay and before the extraction evaluate; and when the
injected script throws, the handler answers 500 carrying that error with no
data (the injection path is not fault-isolated). -/
theorem c8_custom_script_injection :
    ∀ (req : Request) (w : World) (gid cs : String),
      req.method ≠ "OPTIONS" →
      truthy (jsStrOr req.queryGameId req.bodyGameId) = some gid →
      truthy req.bodyCustomScript = some cs →
      w.launchErr = none → w.newPageErr = none → w.gotoErr = none →
      evBefore (Ev.goto (lichessUrl gid)) Ev.inject (advFetch req w).2 ∧
      (∀ d, Ev.delay d ∈ (advFetch req w).2 →
        evBefore Ev.inject (Ev.delay d) (advFetch req w).2) ∧
      (Ev.evaluate ∈ (advFetch req w).2 →
        evBefore Ev.inject Ev.evaluate (advFetch req w).2) ∧
      (∀ e, w.injectErr = some e →
        (advFetch req w).1.status = 500 ∧ (advFetch req w).1.error = some e ∧
        (advFetch req w).1.data = none) := by
  intro req w gid cs hm hg hcs hL hN hG
  cases hI : w.injectErr with
  | some e =>
    have hfetch : advFetch req w =
        (adv500 gid e,
         [Ev.launch, Ev.newPage, Ev.interception, Ev.setUA, Ev.goto (lichessUrl gid),
          Ev.inject, Ev.close]) := by
      simp [advFetch, hm, hg, hcs, hL, hN, hG, hI]
    rw [hfetch]
    refine ⟨⟨[Ev.launch, Ev.newPage, Ev.interception, Ev.setUA], [], [Ev.close], rfl⟩, ?_, ?_, ?_⟩
    · intro d hd
      simp at hd
    · intro hev
      simp at hev
    · intro e' he'
      have h3 : e = e' := Option.some.inj he'
      subst h3
      exact ⟨rfl, rfl, rfl⟩
  | none =>
    cases hA : advAssemble w.page with
    | error m =>
      have hfetch : advFetch req w =
          (adv500 gid m,
           [Ev.launch, Ev.newPage, Ev.interception, Ev.setUA, Ev.goto (lichessUrl gid),
            Ev.inject, Ev.delay (advWaitTime req), Ev.evaluate, Ev.close]) := by
        simp [advFetch, advTail, hm, hg, hcs, hL, hN, hG, hI, hA]
      rw [hfetch]
      refine ⟨⟨[Ev.launch, Ev.newPage, Ev.interception, Ev.setUA], [],
               [Ev.delay (advWaitTime req), Ev.evaluate, Ev.close], rfl⟩, ?_, ?_, ?_⟩
      · intro d hd
        simp at hd
        subst hd
        exact ⟨[Ev.launch, Ev.newPage, Ev.interception, Ev.setUA, Ev.goto (lichessUrl gid)],
               [], [Ev.evaluate, Ev.close], rfl⟩
      · intro hev
        exact ⟨[Ev.launch, Ev.newPage, Ev.interception, Ev.setUA, Ev.goto (lichessUrl gid)],
               [Ev.delay (advWaitTime req)], [Ev.close], rfl⟩
      · intro e' he'
        exact Option.noConfusion he'
    | ok env =>
      have hfetch : advFetch req w =
          (resp200 gid env w.now,
           [Ev.launch, Ev.newPage, Ev.interception, Ev.setUA, Ev.goto (lichessUrl gid),
            Ev.inject, Ev.delay (advWaitTime req), Ev.evaluate, Ev.close]) := by
        simp [advFetch, advTail, hm, hg, hcs, hL, hN, hG, hI, hA]
      rw [hfetch]
      refine ⟨⟨[Ev.launch, Ev.newPage, Ev.interception, Ev.setUA], [],
               [Ev.delay (advWaitTime req), Ev.evaluate, Ev.close], rfl⟩, ?_, ?_, ?_⟩
      · intro d hd
        simp at hd
        subst hd
        exact ⟨[Ev.launch, Ev.newPage, Ev.interception, Ev.setUA, Ev.goto (lichessUrl gid)],
               [], [Ev.evaluate, Ev.close], rfl⟩
      · intro hev
        exact ⟨[Ev.launch, Ev.newPage, Ev.interception, Ev.setUA, Ev.goto (lichessUrl gid)],
               [Ev.delay (advWaitTime req)], [Ev.close], rfl⟩
      · intro e' he'
        exact Option.noConfusion he'

/-- Witness for C8: on the concrete run whose injected script throws, the
handler answers 500 with that error. -/
theorem c8_witness :
    (advFetch scriptRequest injectFailWorld).1.status = 500 ∧
    (advFetch scriptRequest injectFailWorld).1.error = some "SyntaxError: Unexpected token" := by
  have h := c8_custom_script_injection scriptRequest injectFailWorld "g1" "window.__marker = 1"
    (by decide) rfl rfl rfl rfl rfl
  have h2 := h.2.2.2 "SyntaxError: Unexpected token" rfl
  exact ⟨h2.1, h2.2.1⟩

/-! ### C9: envelope immutability after evaluation -/

/-- The envelope the basic assembler produces on the plain page. -/
def plainEnv : BasicGameData :=
  { pageInitData := none, extensionData := none,
    additionalData :=
      { title := "t", url := "u", moves := none, analysis := none,
        extensionElements := none },
    htmlLength := none }

/-- Counterexample to C9: on a concrete successful basic request the handler
mutates the envelope after the evaluation returns it - the data field of the
response carries an htmlLength the evaluation result does not have. -/
theorem c9_counterexample :
    Option.map BasicGameData.htmlLength (basicFetch okRequest okWorld).1.data =
      some (some 12) ∧
    Option.map BasicGameData.htmlLength (basicAssemble okWorld.page).toOption =
      some none :=
  ⟨rfl, rfl⟩

/-- C9 as amended: the advanced handler returns the evaluation result
unmodified, but the basic handler mutates it after the evaluation by setting
exactly one field - htmlLength, to the page HTML length - leaving every
other field unchanged. -/
theorem c9_amended :
    ∀ (req : Request) (w : World) (gid : String),
      req.method ≠ "OPTIONS" →
      truthy (jsStrOr req.queryGameId req.bodyGameId) = some gid →
      w.launchErr = none → w.newPageErr = none → w.gotoErr = none →
      (∀ env, basicAssemble w.page = Except.ok env →
        (basicFetch req w).1.data = some { env with htmlLength := some w.html.length }) ∧
      (∀ env, advAssemble w.page = Except.ok env →
        (truthy req.bodyCustomScript = none ∨ w.injectErr = none) →
        (advFetch req w).1.data = some env) := by
  intro req w gid hm hg hL hN hG
  constructor
  · intro env henv
    simp [basicFetch, hm, hg, hL, hN, hG, henv, resp200]
  · intro env henv hinj
    cases hcs : truthy req.bodyCustomScript with
    | none => simp [advFetch, advTail, hm, hg, hL, hN, hG, hcs, henv, resp200]
    | some cs =>
      rcases hinj with h | h
      · rw [hcs] at h
        exact absurd h (by simp)
      · simp [advFetch, advTail, hm, hg, hL, hN, hG, hcs, h, henv, resp200]

/-- Witness for C9 as amended: the concrete successful basic run returns the
plain-page envelope with only htmlLength changed. -/
theorem c9_amended_witness :
    (basicFetch okRequest okWorld).1.data =
      some { plainEnv with htmlLength := some (12 : Nat) } :=
  (c9_amended okRequest okWorld "g1" (by decide) rfl rfl rfl rfl).1 plainEnv rfl

/-! ### C10: waitTime parsing -/

/-- C10: the advanced settle delay is parseInt of the raw waitTime string,
the truthy query value taking precedence over the body value with fallback
to the literal 5000; a string that does not begin with a parseable integer
yields NaN; and the handler performs the delay with exactly that unvalidated
value - positivity is never checked. -/
theorem c10_waitTime_unvalidated :
    (∀ s : String, beginsParseableInt s = false → jsParseInt s = JsNum.nan) ∧
    (∀ (req : Request) (q : String), truthy req.queryWaitTime = some q → advWaitRaw req = q) ∧
    (∀ req : Request, truthy req.queryWaitTime = none → truthy req.bodyWaitTime = none →
      advWaitRaw req = "5000") ∧
    (∀ (req : Request) (w : World) (gid : String),
      req.method ≠ "OPTIONS" →
      truthy (jsStrOr req.queryGameId req.bodyGameId) = some gid →
      w.launchErr = none → w.newPageErr = none → w.gotoErr = none →
      (truthy req.bodyCustomScript = none ∨ w.injectErr = none) →
      Ev.delay (advWaitTime req) ∈ (advFetch req w).2) := by
  refine ⟨?_, ?_, ?_, ?_⟩
  · intro s h
    unfold beginsParseableInt at h
    have h2 : (parseIntCore s).2.2.isEmpty = true := by simpa using h
    unfold jsParseInt
    simp [h2]
  · intro req q h
    have hq : q ≠ "" := by
      cases hx : req.queryWaitTime with
      | none => rw [hx] at h; simp [truthy] at h
      | some s =>
        rw [hx] at h
        by_cases hs : s = ""
        · simp [truthy, hs] at h
        · simp [truthy, hs] at h
          rw [← h]
          exact hs
    have ht : truthy (some q) = some q := by simp [truthy, hq]
    simp [advWaitRaw, jsStrOr, h, ht]
  · intro req h1 h2
    simp [advWaitRaw, jsStrOr, h1, h2]
  · intro req w gid hm hg hL hN hG hinj
    cases hcs : truthy req.bodyCustomScript with
    | none =>
      cases hA : advAssemble w.page <;>
        simp [advFetch, advTail, hm, hg, hL, hN, hG, hcs, hA]
    | some cs =>
      rcases hinj with h | h
      · rw [hcs] at h
        exact absurd h (by simp)
      · cases hA : advAssemble w.page <;>
          simp [advFetch, advTail, hm, hg, hL, hN, hG, hcs, h, hA]

/-- Witness for C10: the concrete waitTime abc parses to NaN and the
concrete advanced run performs the settle delay with that NaN value. -/
theorem c10_witness :
    jsParseInt "abc" = JsNum.nan ∧
    Ev.delay (advWaitTime scriptRequest) ∈ (advFetch scriptRequest okWorld).2 :=
  ⟨c10_waitTime_unvalidated.1 "abc" rfl,
   c10_waitTime_unvalidated.2.2.2 scriptRequest okWorld "g1" (by decide) rfl rfl rfl rfl
     (Or.inr rfl)⟩

end LichessScraper
